import Mathlib

/-!
Shallow embedding of the contest/hackathon tracker backend (src/main.py):
the JSON sanitizer, the datetime parsing used by the status classifier,
the three source adapters (Unstop scrape, Codeforces list API, CodeChef
snapshot file), the short-TTL Codeforces cache, the status filter and the
aggregating query, together with theorems checking the specification's
claims about them.

Modelling conventions:
- Python `float` values are modelled abstractly by their IEEE class
  (`nan`, positive/negative infinity, or a finite value carried as a
  rational); `math.isnan` / `math.isinf` only inspect that class.
- Python JSON-like values (the argument of `sanitize_json`) are modelled
  by a mutually inductive family `PyVal` / `PyList` / `PyEntries`
  (dicts keep insertion order, as Python dicts do).
- Wall-clock instants are modelled by a broken-down UTC `PyDateTime`;
  comparison of two datetimes is field-lexicographic, realised by the
  injective mixed-radix encoding `PyDateTime.key`.
- External effects are passed as explicit arguments: the network response
  of an HTTP call is an `Option` (none = request/JSON-decode exception),
  a file is an `Option (Except Unit _)` (none = absent, `.error` = the
  read/parse raised), and the module-level Codeforces cache dict is an
  explicit `CFCache` value threaded through `get_codeforces_cached`.
-/

/-! ## Python floats and `sanitize_json` (src/main.py lines 29-39) -/

/-- Abstract model of a Python `float`: only its IEEE class matters to
`math.isnan` / `math.isinf`. -/
inductive PyFloat where
  | nan : PyFloat
  | posInf : PyFloat
  | negInf : PyFloat
  | finite : Rat → PyFloat
deriving DecidableEq, Repr

/-- The test `math.isnan(data) or math.isinf(data)` from `sanitize_json`. -/
def isBadFloat : PyFloat → Bool
  | PyFloat.nan => true
  | PyFloat.posInf => true
  | PyFloat.negInf => true
  | PyFloat.finite _ => false

mutual

/-- A Python JSON-like value: float, str, int, bool, None, dict or list. -/
inductive PyVal where
  | float : PyFloat → PyVal
  | str : String → PyVal
  | int : Int → PyVal
  | bool : Bool → PyVal
  | pynone : PyVal
  | dict : PyEntries → PyVal
  | list : PyList → PyVal

/-- A Python list of JSON-like values. -/
inductive PyList where
  | nil : PyList
  | cons : PyVal → PyList → PyList

/-- The ordered key/value entries of a Python dict. -/
inductive PyEntries where
  | nil : PyEntries
  | cons : String → PyVal → PyEntries → PyEntries

end

mutual

/-- Embedding of `sanitize_json` (src/main.py lines 29-39): a NaN or
infinite float becomes `""`, dicts and lists are rebuilt recursively,
every other value is returned unchanged. -/
def sanitize_json : PyVal → PyVal
  | PyVal.float f => if isBadFloat f then PyVal.str "" else PyVal.float f
  | PyVal.dict es => PyVal.dict (sanitizeEntries es)
  | PyVal.list xs => PyVal.list (sanitizeList xs)
  | v => v

/-- The dict comprehension `{k: sanitize_json(v) for k, v in data.items()}`. -/
def sanitizeEntries : PyEntries → PyEntries
  | PyEntries.nil => PyEntries.nil
  | PyEntries.cons k v rest => PyEntries.cons k (sanitize_json v) (sanitizeEntries rest)

/-- The list comprehension `[sanitize_json(i) for i in data]`. -/
def sanitizeList : PyList → PyList
  | PyList.nil => PyList.nil
  | PyList.cons x xs => PyList.cons (sanitize_json x) (sanitizeList xs)

end

mutual

/-- No NaN/infinite float occurs anywhere in the value. -/
def cleanVal : PyVal → Bool
  | PyVal.float f => !(isBadFloat f)
  | PyVal.dict es => cleanEntries es
  | PyVal.list xs => cleanList xs
  | _ => true

/-- No NaN/infinite float occurs in any entry value. -/
def cleanEntries : PyEntries → Bool
  | PyEntries.nil => true
  | PyEntries.cons _ v rest => cleanVal v && cleanEntries rest

/-- No NaN/infinite float occurs in any element. -/
def cleanList : PyList → Bool
  | PyList.nil => true
  | PyList.cons x xs => cleanVal x && cleanList xs

end

/-- The keys of a dict, in insertion order. -/
def PyEntries.keys : PyEntries → List String
  | PyEntries.nil => []
  | PyEntries.cons k _ rest => k :: PyEntries.keys rest

/-- The length of a Python list value. -/
def PyList.length : PyList → Nat
  | PyList.nil => 0
  | PyList.cons _ xs => 1 + PyList.length xs

/-! ## Datetimes and `parse_datetime_safe` (src/main.py lines 42-47)

`parse_datetime_safe` wraps `datetime.strptime(date_str, "%Y-%m-%d %H:%M")`,
returning `None` on any exception.  The embedding below reproduces
CPython's `_strptime` behaviour for this fixed format: `%Y` matches exactly
four digits, `%m`/`%d`/`%H`/`%M` match one or two digits within their
regex-enforced ranges, the literal `-` and `:` must match exactly, the
blank in the format matches one or more whitespace characters, the whole
input must be consumed, and the resulting field values must form a valid
calendar date (otherwise the `datetime` constructor raises). -/

/-- A timezone-naive Python datetime, broken down in UTC. -/
structure PyDateTime where
  year : Nat
  month : Nat
  day : Nat
  hour : Nat
  minute : Nat
  second : Nat := 0
  micro : Nat := 0
deriving DecidableEq, Repr

/-- Injective mixed-radix encoding of a datetime; for in-range field
values the order of keys is exactly Python's field-lexicographic
comparison of datetimes. -/
def PyDateTime.key (t : PyDateTime) : Nat :=
  (((((t.year * 13 + t.month) * 32 + t.day) * 24 + t.hour) * 60
      + t.minute) * 60 + t.second) * 1000000 + t.micro

/-- Numeric value of a decimal digit character. -/
def digitVal (c : Char) : Nat := c.toNat - 48

/-- Split off the maximal leading run of decimal digits. -/
def takeDigits : List Char → List Char × List Char
  | [] => ([], [])
  | c :: rest =>
    if c.isDigit then
      let p := takeDigits rest
      (c :: p.1, p.2)
    else ([], c :: rest)

/-- Decimal value of a digit run. -/
def digitsToNat (ds : List Char) : Nat :=
  ds.foldl (fun a c => a * 10 + digitVal c) 0

/-- Match a numeric strptime field of one or two digits whose value lies
in `[lo, hi]` (the ranges enforced by `_strptime`'s regexes for
`%m`, `%d`, `%H`, `%M`). -/
def parseField2 (lo hi : Nat) (cs : List Char) : Option (Nat × List Char) :=
  let p := takeDigits cs
  if p.1.length = 0 ∨ 2 < p.1.length then none
  else
    let v := digitsToNat p.1
    if lo ≤ v ∧ v ≤ hi then some (v, p.2) else none

/-- Match one literal character. -/
def expectChar (c : Char) : List Char → Option (List Char)
  | [] => none
  | x :: rest => if x = c then some rest else none

/-- Drop any further whitespace characters. -/
def dropWhitespace : List Char → List Char
  | [] => []
  | x :: rest => if x.isWhitespace then dropWhitespace rest else x :: rest

/-- Match the blank of the format: one or more whitespace characters. -/
def expectSpaces : List Char → Option (List Char)
  | [] => none
  | x :: rest => if x.isWhitespace then some (dropWhitespace rest) else none

/-- The Gregorian leap-year rule. -/
def isLeapYear (y : Nat) : Bool :=
  y % 4 = 0 && (y % 100 != 0 || y % 400 = 0)

/-- Number of days in a month, as the `datetime` constructor checks. -/
def daysInMonth (y m : Nat) : Nat :=
  if m = 2 then (if isLeapYear y then 29 else 28)
  else if m = 4 ∨ m = 6 ∨ m = 9 ∨ m = 11 then 30
  else 31

/-- Embedding of `parse_datetime_safe` (src/main.py lines 42-47):
`datetime.strptime(date_str, "%Y-%m-%d %H:%M")` with every exception
turned into `none`. -/
def parse_datetime_safe (s : String) : Option PyDateTime :=
  let p := takeDigits s.data
  if p.1.length ≠ 4 then none
  else
    let y := digitsToNat p.1
    match expectChar '-' p.2 with
    | none => none
    | some r1 =>
      match parseField2 1 12 r1 with
      | none => none
      | some (mo, r2) =>
        match expectChar '-' r2 with
        | none => none
        | some r3 =>
          match parseField2 1 31 r3 with
          | none => none
          | some (d, r4) =>
            match expectSpaces r4 with
            | none => none
            | some r5 =>
              match parseField2 0 23 r5 with
              | none => none
              | some (h, r6) =>
                match expectChar ':' r6 with
                | none => none
                | some r7 =>
                  match parseField2 0 59 r7 with
                  | none => none
                  | some (mi, r8) =>
                    if r8 = [] ∧ 1 ≤ y ∧ d ≤ daysInMonth y mo then
                      some ⟨y, mo, d, h, mi, 0, 0⟩
                    else none

/-! ## Epoch conversion and `strftime` used by the Codeforces adapter -/

/-- Civil date from a count of days since 1970-01-01 (the classic
era-based algorithm; this is what `datetime.utcfromtimestamp` computes
for nonnegative timestamps). -/
def civilFromDays (days : Nat) : Nat × Nat × Nat :=
  let z := days + 719468
  let era := z / 146097
  let doe := z % 146097
  let yoe := (doe - doe / 1460 + doe / 36524 - doe / 146096) / 365
  let y := yoe + era * 400
  let doy := doe - (365 * yoe + yoe / 4 - yoe / 100)
  let mp := (5 * doy + 2) / 153
  let d := doy - (153 * mp + 2) / 5 + 1
  let m := if mp < 10 then mp + 3 else mp - 9
  (if m ≤ 2 then y + 1 else y, m, d)

/-- Embedding of `datetime.utcfromtimestamp` for nonnegative epoch
seconds (Codeforces `startTimeSeconds` values are nonnegative). -/
def utcfromtimestamp (secs : Nat) : PyDateTime :=
  let days := secs / 86400
  let rem := secs % 86400
  let c := civilFromDays days
  ⟨c.1, c.2.1, c.2.2, rem / 3600, rem % 3600 / 60, rem % 60, 0⟩

/-- Zero-padded two-digit decimal rendering. -/
def pad2 (n : Nat) : String :=
  if n < 10 then "0" ++ toString n else toString n

/-- Zero-padded four-digit decimal rendering. -/
def pad4 (n : Nat) : String :=
  if n < 10 then "000" ++ toString n
  else if n < 100 then "00" ++ toString n
  else if n < 1000 then "0" ++ toString n
  else toString n

/-- Embedding of `strftime("%Y-%m-%d %H:%M")`. -/
def strftimeYMDHM (t : PyDateTime) : String :=
  pad4 t.year ++ "-" ++ pad2 t.month ++ "-" ++ pad2 t.day ++ " "
    ++ pad2 t.hour ++ ":" ++ pad2 t.minute

/-- Python `str.replace` for a single-character pattern, as used by the
CodeChef normalizer's `.replace("T", " ")`: every occurrence is replaced. -/
def strReplaceChar (s : String) (a b : Char) : String :=
  ⟨s.data.map (fun c => if c = a then b else c)⟩

/-! ## The unified record (the dicts produced by the three adapters)

Every adapter produces dicts with the string keys `title`, `platform`,
`start_date`, `end_date`, `apply_link`, `category`; hackathon records
additionally carry a `status` key (the raw Unstop status hint) and
Codeforces records a `phase` key.  The two optional keys are modelled
with `Option`; `c.get("phase", "")` is `phase.getD ""` and the plain
`c["status"]` lookup (always present on hackathon records this program
builds) is compared through the `Option`. -/

structure ListingRecord where
  title : String
  platform : String
  start_date : String
  end_date : String
  apply_link : String
  category : String
  status : Option String := none
  phase : Option String := none
deriving DecidableEq, Repr

/-! ## Unstop scraper and hackathon source (src/main.py lines 51-110) -/

/-- One item of the Unstop search response; each field is read with
`item.get(field, "")`, so each may be absent. -/
structure UnstopItem where
  title : Option String := none
  start_date : Option String := none
  end_date : Option String := none
  seo_url : Option String := none
deriving DecidableEq, Repr

/-- One row of the saved hackathon CSV (columns Title / Start Date /
End Date / Apply Link / Status). -/
structure HackRow where
  rowTitle : String
  rowStartDate : String
  rowEndDate : String
  rowApplyLink : String
  rowStatus : String
deriving DecidableEq, Repr

/-- The dict built for one Unstop item inside
`fetch_and_save_unstop_hackathons`: every field defaults to `""`. -/
def unstopRow (status : String) (item : UnstopItem) : HackRow :=
  { rowTitle := item.title.getD ""
    rowStartDate := item.start_date.getD ""
    rowEndDate := item.end_date.getD ""
    rowApplyLink := item.seo_url.getD ""
    rowStatus := status }

/-- The inner loop over `data.get("data", {}).get("data", [])`. -/
def unstopNormalizePage (status : String) (items : List UnstopItem) : List HackRow :=
  items.map (unstopRow status)

/-- Embedding of `fetch_and_save_unstop_hackathons` (src/main.py lines
51-86) up to the CSV write: `resp status page` is the decoded item list
of the request for that status/page (`none` models a request or JSON
exception, which the code logs and skips with `continue`). -/
def fetch_and_save_unstop_hackathons
    (resp : String → Nat → Option (List UnstopItem)) (pages : Nat) : List HackRow :=
  (["open", "expired"].map fun status =>
    ((List.range' 1 pages).map fun page =>
      match resp status page with
      | none => []
      | some items => unstopNormalizePage status items).flatten).flatten

/-- Embedding of `load_hackathons_df` (src/main.py lines 89-92): a
missing CSV yields an empty frame; `file = some r` is the outcome of
`pd.read_csv(...).fillna("")`, whose exceptions propagate. -/
def load_hackathons_df (file : Option (Except Unit (List HackRow))) :
    Except Unit (List HackRow) :=
  match file with
  | none => Except.ok []
  | some r => r

/-- The record dict `get_hackathons` builds from one CSV row. -/
def rowToRec (row : HackRow) : ListingRecord :=
  { title := row.rowTitle
    platform := "Unstop"
    start_date := row.rowStartDate
    end_date := row.rowEndDate
    apply_link := row.rowApplyLink
    category := "hackathon"
    status := some row.rowStatus
    phase := none }

/-- Embedding of `get_hackathons` (src/main.py lines 95-110). -/
def get_hackathons (file : Option (Except Unit (List HackRow))) :
    Except Unit (List ListingRecord) :=
  match load_hackathons_df file with
  | Except.ok rows => Except.ok (rows.map rowToRec)
  | Except.error e => Except.error e

/-! ## Codeforces adapter and its short-TTL cache (src/main.py lines 115-148) -/

/-- One item of the Codeforces `contest.list` response.  `name`,
`startTimeSeconds` and `id` are accessed with raw indexing (a missing
key raises `KeyError`); `durationSeconds` and `phase` use `.get` with
defaults `0` and `""`. -/
structure CFItem where
  name : Option String := none
  id : Option Nat := none
  startTimeSeconds : Option Nat := none
  durationSeconds : Option Nat := none
  phase : Option String := none
deriving DecidableEq, Repr

/-- An item normalizes without raising `KeyError` iff its three
raw-indexed keys are present. -/
def cfItemOk (c : CFItem) : Bool :=
  c.startTimeSeconds.isSome && c.name.isSome && c.id.isSome

/-- The record dict built for one well-formed Codeforces item. -/
def cfRecord (nm : String) (st dur cid : Nat) (ph : String) : ListingRecord :=
  { title := nm
    platform := "Codeforces"
    start_date := strftimeYMDHM (utcfromtimestamp st)
    end_date := strftimeYMDHM (utcfromtimestamp (st + dur))
    apply_link := "https://codeforces.com/contest/" ++ toString cid
    category := "contest"
    status := none
    phase := some ph }

/-- The `for c in data:` loop of `fetch_codeforces_contests`.  The
`try` block encloses the whole loop, so the `KeyError` raised by a
malformed item ends the loop: the records accumulated so far are
returned and the remaining items are never processed. -/
def cfNormalizeLoop : List CFItem → List ListingRecord → List ListingRecord
  | [], acc => acc.reverse
  | c :: rest, acc =>
    match c.startTimeSeconds, c.name, c.id with
    | some st, some nm, some cid =>
      cfNormalizeLoop rest
        (cfRecord nm st (c.durationSeconds.getD 0) cid (c.phase.getD "") :: acc)
    | _, _, _ => acc.reverse

/-- Embedding of `fetch_codeforces_contests` (src/main.py lines 118-137):
`resp = none` models a request or JSON-decode exception before the loop
(caught, yielding `[]`); `resp = some items` is the decoded `result`
list (a missing `result` key gives `some []`). -/
def fetch_codeforces_contests (resp : Option (List CFItem)) : List ListingRecord :=
  match resp with
  | none => []
  | some items => cfNormalizeLoop items []

/-- The module-level `CODEFORCES_CACHE` dict. -/
structure CFCache where
  data : List ListingRecord
  time : Option Nat
deriving DecidableEq, Repr

/-- `CACHE_TTL = timedelta(minutes=10)`, in seconds (the cache clock is
modelled in seconds since an arbitrary origin). -/
def CACHE_TTL : Nat := 600

/-- Embedding of `get_codeforces_cached` (src/main.py lines 140-148),
returning the served records and the cache state after the call. -/
def get_codeforces_cached (cache : CFCache) (now : Nat)
    (resp : Option (List CFItem)) : List ListingRecord × CFCache :=
  match cache.time with
  | some t =>
    if now - t < CACHE_TTL then (cache.data, cache)
    else
      let data := fetch_codeforces_contests resp
      (data, { data := data, time := some now })
  | none =>
    let data := fetch_codeforces_contests resp
    (data, { data := data, time := some now })

/-- The cache branch condition is false: no timestamp, or age ≥ TTL. -/
def cfCacheExpired (cache : CFCache) (now : Nat) : Bool :=
  match cache.time with
  | none => true
  | some t => ! decide (now - t < CACHE_TTL)

/-! ## CodeChef snapshot adapter (src/main.py lines 153-173) -/

/-- One item of the snapshot file; every field is read with `.get`. -/
structure CCItem where
  contest_name : Option String := none
  contest_code : Option String := none
  contest_start_date_iso : Option String := none
  contest_end_date_iso : Option String := none
deriving DecidableEq, Repr

/-- The decoded snapshot document (missing arrays default to `[]`). -/
structure CCData where
  future_contests : List CCItem := []
  past_contests : List CCItem := []
deriving DecidableEq, Repr

/-- The record dict built for one snapshot item: the ISO strings keep
their `:SS` tail, only the `T` separator is replaced by a blank. -/
def ccRecord (c : CCItem) : ListingRecord :=
  { title := c.contest_name.getD ""
    platform := "CodeChef"
    start_date := strReplaceChar (c.contest_start_date_iso.getD "") 'T' ' '
    end_date := strReplaceChar (c.contest_end_date_iso.getD "") 'T' ' '
    apply_link := "https://www.codechef.com/" ++ c.contest_code.getD ""
    category := "contest"
    status := none
    phase := none }

/-- Embedding of `fetch_codechef_contests` (src/main.py lines 153-173):
`file = none` models an absent snapshot (the existence check returns the
empty list); `some (Except.error ())` a present file on which
`json.load` raises — that exception is NOT caught inside the adapter and
propagates; `some (Except.ok data)` a decoded snapshot. -/
def fetch_codechef_contests (file : Option (Except Unit CCData)) :
    Except Unit (List ListingRecord) :=
  match file with
  | none => Except.ok []
  | some (Except.error e) => Except.error e
  | some (Except.ok data) =>
    Except.ok ((data.future_contests ++ data.past_contests).map ccRecord)

/-! ## Status filter (src/main.py lines 178-200) -/

/-- The Python test `start and start > now`. -/
def dtAfter (d : Option PyDateTime) (now : PyDateTime) : Bool :=
  match d with
  | some t => decide (now.key < t.key)
  | none => false

/-- The Python test `end and end < now`. -/
def dtBefore (d : Option PyDateTime) (now : PyDateTime) : Bool :=
  match d with
  | some t => decide (t.key < now.key)
  | none => false

/-- The Python test `start and end and start <= now <= end`. -/
def dtWithin (s e : Option PyDateTime) (now : PyDateTime) : Bool :=
  match s, e with
  | some a, some b => decide (a.key ≤ now.key) && decide (now.key ≤ b.key)
  | _, _ => false

/-- Python `str.upper()` for the ASCII strings the phase field holds. -/
def pyUpper (s : String) : String :=
  ⟨s.data.map Char.toUpper⟩

/-- The per-record condition of the `filter_by_status` loop: `true` iff
the loop appends record `c` for the requested `status`. -/
def keepRecord (status : String) (now : PyDateTime) (c : ListingRecord) : Bool :=
  if c.category = "hackathon" then
    if status = "live" ∧ c.status = some "open" then true
    else if status = "past" ∧ c.status = some "expired" then true
    else false
  else
    let start := parse_datetime_safe c.start_date
    let stop := parse_datetime_safe c.end_date
    let phase := pyUpper (c.phase.getD "")
    if status = "upcoming" ∧ dtAfter start now = true then true
    else if status = "live" ∧ (dtWithin start stop now = true ∨ phase = "CODING") then true
    else if status = "past" ∧ dtBefore stop now = true then true
    else false

/-- Embedding of `filter_by_status` (src/main.py lines 178-200).  The
source computes `now = datetime.utcnow()` once at the top of the call;
here that single instant is an explicit argument. -/
def filter_by_status (items : List ListingRecord) (status : String)
    (now : PyDateTime) : List ListingRecord :=
  items.filter (keepRecord status now)

/-! ## Aggregating route `get_all` (src/main.py lines 233-258) -/

/-- The concatenation the route builds: each source is wrapped in its
own `try`, so a raising source contributes nothing. -/
def sourceRecords (hackFile : Option (Except Unit (List HackRow)))
    (cfCache : CFCache) (nowSecs : Nat) (cfResp : Option (List CFItem))
    (ccFile : Option (Except Unit CCData)) : List ListingRecord :=
  (match get_hackathons hackFile with
   | Except.ok xs => xs
   | Except.error _ => [])
  ++ (get_codeforces_cached cfCache nowSecs cfResp).1
  ++ (match fetch_codechef_contests ccFile with
      | Except.ok xs => xs
      | Except.error _ => [])

/-- Embedding of the route `get_all` (src/main.py lines 233-258).  The
query parameters default to `None`; Python's truthiness makes an empty
string behave like an absent parameter.  The final `sanitize_json` acts
on the JSON rendering of the records, whose leaves are all strings, so
the returned sequence of records is unchanged by it. -/
def get_all (hackFile : Option (Except Unit (List HackRow)))
    (cfCache : CFCache) (nowSecs : Nat) (cfResp : Option (List CFItem))
    (ccFile : Option (Except Unit CCData))
    (type_ status : Option String) (now : PyDateTime) : List ListingRecord :=
  let allItems := sourceRecords hackFile cfCache nowSecs cfResp ccFile
  let afterType :=
    match type_ with
    | some t => if t = "" then allItems else allItems.filter (fun c => c.category = t)
    | none => allItems
  match status with
  | some s => if s = "" then afterType else filter_by_status afterType s now
  | none => afterType

/-! ## Lemmas about `sanitize_json` -/

mutual

/-- Sanitized values contain no NaN/infinite float. -/
theorem cleanVal_sanitize : ∀ v : PyVal, cleanVal (sanitize_json v) = true
  | PyVal.float f => by cases f <;> simp [sanitize_json, cleanVal, isBadFloat]
  | PyVal.str _ => rfl
  | PyVal.int _ => rfl
  | PyVal.bool _ => rfl
  | PyVal.pynone => rfl
  | PyVal.dict es => by
    simpa [sanitize_json, cleanVal] using cleanEntries_sanitize es
  | PyVal.list xs => by
    simpa [sanitize_json, cleanVal] using cleanList_sanitize xs

/-- Sanitized dict entries contain no NaN/infinite float. -/
theorem cleanEntries_sanitize : ∀ es : PyEntries, cleanEntries (sanitizeEntries es) = true
  | PyEntries.nil => rfl
  | PyEntries.cons k v rest => by
    simp [sanitizeEntries, cleanEntries]
    exact ⟨cleanVal_sanitize v, cleanEntries_sanitize rest⟩

/-- Sanitized list elements contain no NaN/infinite float. -/
theorem cleanList_sanitize : ∀ xs : PyList, cleanList (sanitizeList xs) = true
  | PyList.nil => rfl
  | PyList.cons x xs => by
    simp [sanitizeList, cleanList]
    exact ⟨cleanVal_sanitize x, cleanList_sanitize xs⟩

end

mutual

/-- Sanitizing is the identity on values with no NaN/infinite float. -/
theorem sanitize_clean_id : ∀ v : PyVal, cleanVal v = true → sanitize_json v = v
  | PyVal.float f => by cases f <;> simp [sanitize_json, cleanVal, isBadFloat]
  | PyVal.str _ => fun _ => rfl
  | PyVal.int _ => fun _ => rfl
  | PyVal.bool _ => fun _ => rfl
  | PyVal.pynone => fun _ => rfl
  | PyVal.dict es => fun h => by
    simp only [cleanVal] at h
    simp [sanitize_json, sanitizeEntries_clean_id es h]
  | PyVal.list xs => fun h => by
    simp only [cleanVal] at h
    simp [sanitize_json, sanitizeList_clean_id xs h]

/-- Entry sanitizing is the identity on clean entries. -/
theorem sanitizeEntries_clean_id :
    ∀ es : PyEntries, cleanEntries es = true → sanitizeEntries es = es
  | PyEntries.nil => fun _ => rfl
  | PyEntries.cons k v rest => fun h => by
    simp only [cleanEntries, Bool.and_eq_true] at h
    simp [sanitizeEntries, sanitize_clean_id v h.1, sanitizeEntries_clean_id rest h.2]

/-- List sanitizing is the identity on clean lists. -/
theorem sanitizeList_clean_id :
    ∀ xs : PyList, cleanList xs = true → sanitizeList xs = xs
  | PyList.nil => fun _ => rfl
  | PyList.cons x xs => fun h => by
    simp only [cleanList, Bool.and_eq_true] at h
    simp [sanitizeList, sanitize_clean_id x h.1, sanitizeList_clean_id xs h.2]

end

/-- Dict keys survive sanitizing unchanged, in order. -/
theorem sanitizeEntries_keys : ∀ es : PyEntries, (sanitizeEntries es).keys = es.keys
  | PyEntries.nil => rfl
  | PyEntries.cons k v rest => by
    simp [sanitizeEntries, PyEntries.keys, sanitizeEntries_keys rest]

/-- List length survives sanitizing unchanged. -/
theorem sanitizeList_length : ∀ xs : PyList, (sanitizeList xs).length = xs.length
  | PyList.nil => rfl
  | PyList.cons x xs => by
    simp [sanitizeList, PyList.length, sanitizeList_length xs]

/-- C9: before serialization, every float value anywhere in the result
structure that is NaN or infinite is replaced by the empty string, and
this sanitization is applied recursively through nested dicts and lists:
a sanitized value contains no NaN/infinite float anywhere, and a
NaN/infinite float leaf is rewritten to `""` exactly. -/
theorem sanitize_json_replaces_nonfinite :
    (∀ v : PyVal, cleanVal (sanitize_json v) = true)
    ∧ (∀ f : PyFloat, isBadFloat f = true →
        sanitize_json (PyVal.float f) = PyVal.str "") := by
  refine ⟨cleanVal_sanitize, fun f hf => ?_⟩
  simp [sanitize_json, hf]

/-- Witness for C9 at concrete inputs: a NaN nested in a dict inside a
list is gone after sanitizing, and a bare NaN becomes `""`. -/
theorem sanitize_json_replaces_nonfinite_witness :
    cleanVal (sanitize_json (PyVal.list (PyList.cons
      (PyVal.dict (PyEntries.cons "score" (PyVal.float PyFloat.nan) PyEntries.nil))
      PyList.nil))) = true
    ∧ sanitize_json (PyVal.float PyFloat.nan) = PyVal.str "" :=
  ⟨sanitize_json_replaces_nonfinite.1 _, sanitize_json_replaces_nonfinite.2 PyFloat.nan rfl⟩

/-- C10: `sanitize_json` is idempotent, is the identity on values free of
NaN/infinite floats (so non-float leaves are unchanged), preserves dict
keys in order, and preserves list length and element order. -/
theorem sanitize_json_idempotent_identity :
    (∀ v : PyVal, sanitize_json (sanitize_json v) = sanitize_json v)
    ∧ (∀ v : PyVal, cleanVal v = true → sanitize_json v = v)
    ∧ (∀ es : PyEntries, (sanitizeEntries es).keys = es.keys)
    ∧ (∀ xs : PyList, (sanitizeList xs).length = xs.length) :=
  ⟨fun v => sanitize_clean_id _ (cleanVal_sanitize v),
   sanitize_clean_id, sanitizeEntries_keys, sanitizeList_length⟩

/-- Witness for C10 at concrete inputs: double sanitizing a NaN equals
sanitizing it once, and a clean string leaf is left unchanged. -/
theorem sanitize_json_idempotent_identity_witness :
    sanitize_json (sanitize_json (PyVal.float PyFloat.nan))
      = sanitize_json (PyVal.float PyFloat.nan)
    ∧ sanitize_json (PyVal.str "title") = PyVal.str "title" :=
  ⟨sanitize_json_idempotent_identity.1 _,
   sanitize_json_idempotent_identity.2.1 (PyVal.str "title") rfl⟩

/-! ## Concrete records and snapshot items used by the claim checks -/

/-- A now instant used by concrete checks: 2024-06-01 12:00:00 UTC. -/
def now0 : PyDateTime := ⟨2024, 6, 1, 12, 0, 0, 0⟩

/-- The snapshot item of the round-trip property, with
`contest_start_date_iso = "2024-05-01T10:00:00"`. -/
def ccBugItem : CCItem :=
  { contest_name := some "Starters"
    contest_code := some "START1"
    contest_start_date_iso := some "2024-05-01T10:00:00"
    contest_end_date_iso := some "2024-05-01T13:00:00" }

/-- C5: normalizing a snapshot item with
`contest_start_date_iso = "2024-05-01T10:00:00"` yields
`start_date = "2024-05-01 10:00:00"`, but that value is NOT accepted by
the classifier's parser (`"%Y-%m-%d %H:%M"` leaves the `:00` seconds
tail unconverted), so the record can never enter any date-based status
bucket — the code contradicts the specification's round-trip property. -/
theorem codechef_start_date_unparseable :
    fetch_codechef_contests
        (some (Except.ok { future_contests := [ccBugItem], past_contests := [] }))
      = Except.ok [ccRecord ccBugItem]
    ∧ (ccRecord ccBugItem).start_date = "2024-05-01 10:00:00"
    ∧ parse_datetime_safe "2024-05-01 10:00:00" = none
    ∧ (∀ now, filter_by_status [ccRecord ccBugItem] "upcoming" now = [])
    ∧ (∀ now, filter_by_status [ccRecord ccBugItem] "live" now = [])
    ∧ (∀ now, filter_by_status [ccRecord ccBugItem] "past" now = []) :=
  ⟨rfl, rfl, rfl, fun _ => rfl, fun _ => rfl, fun _ => rfl⟩

/-- C6 counterexample: a present-but-malformed snapshot file makes the
CodeChef adapter raise (the `json.load` exception is not caught inside
`fetch_codechef_contests`), so the adapter does not return an empty
sequence for that input. -/
theorem codechef_adapter_raises_counterexample :
    fetch_codechef_contests (some (Except.error ())) = Except.error ()
    ∧ ∀ xs : List ListingRecord,
        fetch_codechef_contests (some (Except.error ())) ≠ Except.ok xs :=
  ⟨rfl, fun xs h => by simp [fetch_codechef_contests] at h⟩

/-- C6 amended: the Codeforces adapter catches its failures internally
and yields an empty sequence on total failure; the CodeChef adapter and
the hackathon CSV reader yield an empty sequence only when their file is
absent, while a present-but-malformed file makes them raise to the
caller (the aggregator's route catches those exceptions instead). -/
theorem adapter_failure_behaviour :
    fetch_codeforces_contests none = []
    ∧ fetch_codechef_contests none = Except.ok []
    ∧ (∀ d : CCData, ∃ xs, fetch_codechef_contests (some (Except.ok d)) = Except.ok xs)
    ∧ fetch_codechef_contests (some (Except.error ())) = Except.error ()
    ∧ load_hackathons_df none = Except.ok []
    ∧ load_hackathons_df (some (Except.error ())) = Except.error () :=
  ⟨rfl, rfl, fun d => ⟨(d.future_contests ++ d.past_contests).map ccRecord, rfl⟩,
   rfl, rfl, rfl⟩

/-! ## C7: one malformed item in a batch -/

/-- A well-formed Codeforces item titled "A". -/
def cfGoodA : CFItem :=
  { name := some "A", id := some 1, startTimeSeconds := some 1700000000
    durationSeconds := some 7200, phase := some "FINISHED" }

/-- A malformed Codeforces item: `startTimeSeconds` is missing, so
`c["startTimeSeconds"]` raises `KeyError`. -/
def cfBadItem : CFItem := { name := some "X", id := some 2 }

/-- A well-formed Codeforces item titled "B". -/
def cfGoodB : CFItem :=
  { name := some "B", id := some 3, startTimeSeconds := some 1700100000
    durationSeconds := some 3600, phase := some "FINISHED" }

/-- C7 counterexample: with the batch [A, malformed, B], the Codeforces
adapter returns only the record for A — the well-formed record B that
follows the malformed item is NOT returned, because the `try` block
wraps the whole loop rather than one iteration.  Without the malformed
item both A and B are returned. -/
theorem cf_malformed_item_truncates_counterexample :
    (fetch_codeforces_contests (some [cfGoodA, cfBadItem, cfGoodB])).map
        (fun r => r.title) = ["A"]
    ∧ (fetch_codeforces_contests (some [cfGoodA, cfGoodB])).map
        (fun r => r.title) = ["A", "B"] :=
  ⟨rfl, rfl⟩

/-- A malformed item ends the normalization loop, returning what was
accumulated so far. -/
theorem cfNormalizeLoop_abort (bad : CFItem) (hbad : cfItemOk bad = false)
    (rest : List CFItem) (acc : List ListingRecord) :
    cfNormalizeLoop (bad :: rest) acc = acc.reverse := by
  cases hst : bad.startTimeSeconds with
  | none => simp [cfNormalizeLoop, hst]
  | some st =>
    cases hnm : bad.name with
    | none => simp [cfNormalizeLoop, hst, hnm]
    | some nm =>
      cases hid : bad.id with
      | none => simp [cfNormalizeLoop, hst, hnm, hid]
      | some cid => simp [cfItemOk, hst, hnm, hid] at hbad

/-- Appending a malformed item and anything after it to a batch of
well-formed items leaves the loop output unchanged. -/
theorem cfNormalizeLoop_truncates (bad : CFItem) (hbad : cfItemOk bad = false)
    (rest : List CFItem) :
    ∀ pre : List CFItem, (∀ c ∈ pre, cfItemOk c = true) →
      ∀ acc, cfNormalizeLoop (pre ++ bad :: rest) acc = cfNormalizeLoop pre acc := by
  intro pre
  induction pre with
  | nil =>
    intro _ acc
    simpa [cfNormalizeLoop] using cfNormalizeLoop_abort bad hbad rest acc
  | cons c pre ih =>
    intro hpre acc
    have hc : cfItemOk c = true := hpre c (by simp)
    simp only [cfItemOk, Bool.and_eq_true, Option.isSome_iff_exists] at hc
    obtain ⟨⟨⟨st, hst⟩, nm, hnm⟩, cid, hcid⟩ := hc
    simp only [List.cons_append, cfNormalizeLoop, hst, hnm, hcid]
    exact ih (fun x hx => hpre x (by simp [hx])) _

/-- C7 amended: a malformed Unstop item never fails its batch (missing
fields are defaulted to empty strings, every item yields a row), but in
the Codeforces adapter the `KeyError` of a malformed item is caught only
outside the loop: the records normalized before it are returned and the
malformed record together with every later record is dropped. -/
theorem malformed_item_handling
    (pre : List CFItem) (bad : CFItem) (rest : List CFItem)
    (hpre : ∀ c ∈ pre, cfItemOk c = true) (hbad : cfItemOk bad = false) :
    (∀ status items, (unstopNormalizePage status items).length = items.length)
    ∧ fetch_codeforces_contests (some (pre ++ bad :: rest))
        = fetch_codeforces_contests (some pre) := by
  refine ⟨fun status items => by simp [unstopNormalizePage], ?_⟩
  simp only [fetch_codeforces_contests]
  exact cfNormalizeLoop_truncates bad hbad rest pre hpre []

/-- Witness for C7 at a concrete batch: [A, malformed, B] normalizes to
the same records as [A] alone, and a page of two Unstop items — one of
them missing every field — still yields two rows. -/
theorem malformed_item_handling_witness :
    fetch_codeforces_contests (some ([cfGoodA] ++ cfBadItem :: [cfGoodB]))
      = fetch_codeforces_contests (some [cfGoodA])
    ∧ (unstopNormalizePage "open" [{ title := some "H" }, {}]).length = 2 :=
  ⟨(malformed_item_handling [cfGoodA] cfBadItem [cfGoodB]
      (fun c hc => by rw [List.mem_singleton.mp hc]; rfl) rfl).2,
   (malformed_item_handling [] cfBadItem [] (by simp) rfl).1 "open"
      [{ title := some "H" }, {}]⟩

/-! ## C1: the short-TTL Codeforces cache on a failed refresh -/

/-- A record sitting in the Codeforces cache before the failed refresh. -/
def cachedRec : ListingRecord :=
  { title := "Cached Round", platform := "Codeforces"
    start_date := "2024-05-01 10:00", end_date := "2024-05-01 12:00"
    apply_link := "https://codeforces.com/contest/1"
    category := "contest", status := none, phase := some "FINISHED" }

/-- C1 counterexample: cache populated at time 0 with one record; at
time 600 s (TTL expired) the fetch fails, yet the call returns the empty
list — not the previously cached records — and overwrites the cache
entry with the empty result. -/
theorem cf_cache_discards_on_failure_counterexample :
    (get_codeforces_cached { data := [cachedRec], time := some 0 } 600 none).1 = []
    ∧ (get_codeforces_cached { data := [cachedRec], time := some 0 } 600 none).2
        = { data := [], time := some 600 }
    ∧ ([] : List ListingRecord) ≠ [cachedRec] :=
  ⟨rfl, rfl, by simp⟩

/-- C1 amended: while the cached entry's age is strictly below the TTL
the cached records are served and the cache is untouched; once the TTL
has expired (or no fetch ever happened), the fetch result replaces the
cache even when the fetch failed — a failed refresh returns the empty
sequence and overwrites any previously cached records instead of serving
them. -/
theorem cf_cache_refresh_overwrites (cache : CFCache) (now : Nat) :
    (∀ t, cache.time = some t → now - t < CACHE_TTL →
      ∀ resp, get_codeforces_cached cache now resp = (cache.data, cache))
    ∧ (cfCacheExpired cache now = true →
      get_codeforces_cached cache now none = ([], { data := [], time := some now })) := by
  constructor
  · intro t ht hlt resp
    simp [get_codeforces_cached, ht, hlt]
  · intro hexp
    cases ht : cache.time with
    | none => simp [get_codeforces_cached, ht, fetch_codeforces_contests]
    | some t =>
      simp only [cfCacheExpired, ht, Bool.not_eq_eq_eq_not, Bool.not_true,
        decide_eq_false_iff_not] at hexp
      simp [get_codeforces_cached, ht, hexp, fetch_codeforces_contests]

/-- Witness for C1 at concrete states: at age 300 s the cached record is
served unchanged; at age 600 s with a failing fetch the call returns
empty and resets the cache. -/
theorem cf_cache_refresh_overwrites_witness :
    get_codeforces_cached { data := [cachedRec], time := some 0 } 300 none
      = ([cachedRec], { data := [cachedRec], time := some 0 })
    ∧ get_codeforces_cached { data := [cachedRec], time := some 0 } 600 none
      = ([], { data := [], time := some 600 }) :=
  ⟨(cf_cache_refresh_overwrites _ 300).1 0 rfl (by decide) none,
   (cf_cache_refresh_overwrites _ 600).2 (by decide)⟩

/-! ## C2-C4: status classification -/

/-- `start and start > now` succeeds exactly on a parsed start strictly
after now. -/
theorem dtAfter_eq_true (d : Option PyDateTime) (now : PyDateTime) :
    dtAfter d now = true ↔ ∃ t, d = some t ∧ now.key < t.key := by
  cases d <;> simp [dtAfter]

/-- `end and end < now` succeeds exactly on a parsed end strictly before
now. -/
theorem dtBefore_eq_true (d : Option PyDateTime) (now : PyDateTime) :
    dtBefore d now = true ↔ ∃ t, d = some t ∧ t.key < now.key := by
  cases d <;> simp [dtBefore]

/-- C2: a hackathon record, for any requested status and any now, is
retained exactly when the requested status is "live" and its hint is
"open", or the requested status is "past" and its hint is "expired";
in particular a status = "upcoming" filter always excludes it, and the
record's date strings are never consulted (now is arbitrary). -/
theorem hackathon_status_from_hint
    (items : List ListingRecord) (r : ListingRecord) (s : String)
    (now : PyDateTime) (h : r.category = "hackathon") :
    r ∈ filter_by_status items s now
      ↔ r ∈ items ∧ ((s = "live" ∧ r.status = some "open")
          ∨ (s = "past" ∧ r.status = some "expired")) := by
  have hk : keepRecord s now r = true
      ↔ ((s = "live" ∧ r.status = some "open")
          ∨ (s = "past" ∧ r.status = some "expired")) := by
    by_cases h1 : s = "live" ∧ r.status = some "open"
    · simp [keepRecord, h, h1]
    · by_cases h2 : s = "past" ∧ r.status = some "expired"
      · simp [keepRecord, h, h1, h2]
      · simp [keepRecord, h, h1, h2]
  simp [filter_by_status, List.mem_filter, hk]

/-- Witness for C2 at concrete records: an "open" hackathon is retained
by a "live" filter, and an "expired" hackathon is excluded from an
"upcoming" filter. -/
theorem hackathon_status_from_hint_witness :
    (⟨"H1", "Unstop", "", "", "", "hackathon", some "open", none⟩ : ListingRecord)
      ∈ filter_by_status
          [⟨"H1", "Unstop", "", "", "", "hackathon", some "open", none⟩] "live" now0
    ∧ (⟨"H2", "Unstop", "", "", "", "hackathon", some "expired", none⟩ : ListingRecord)
      ∉ filter_by_status
          [⟨"H2", "Unstop", "", "", "", "hackathon", some "expired", none⟩] "upcoming" now0 := by
  constructor
  · exact (hackathon_status_from_hint _ _ _ now0 rfl).mpr
      ⟨by simp, Or.inl ⟨rfl, rfl⟩⟩
  · intro hmem
    have hc := (hackathon_status_from_hint _ _ _ now0 rfl).mp hmem
    simp at hc

/-- C3: a contest record whose phase uppercases to "CODING" is retained
by a status = "live" filter for every now, regardless of whether its
date strings parse or where now lies. -/
theorem contest_coding_phase_always_live
    (items : List ListingRecord) (r : ListingRecord) (now : PyDateTime)
    (hcat : r.category = "contest") (hph : pyUpper (r.phase.getD "") = "CODING")
    (hmem : r ∈ items) :
    r ∈ filter_by_status items "live" now := by
  simp only [filter_by_status, List.mem_filter]
  refine ⟨hmem, ?_⟩
  simp [keepRecord, hcat, hph]

/-- Witness for C3: a contest with unparseable date strings and phase
"Coding" (mixed case) is retained by the "live" filter. -/
theorem contest_coding_phase_always_live_witness :
    (⟨"CF", "Codeforces", "garbage", "", "", "contest", none, some "Coding"⟩ : ListingRecord)
      ∈ filter_by_status
          [⟨"CF", "Codeforces", "garbage", "", "", "contest", none, some "Coding"⟩]
          "live" now0 :=
  contest_coding_phase_always_live _ _ now0 rfl rfl (by simp)

/-- C4: a contest record is classified "upcoming" exactly when its start
string parses under "%Y-%m-%d %H:%M" to an instant strictly after now,
and "past" exactly when its end string parses to an instant strictly
before now; a record whose relevant date string is unparseable is still
retained in the unfiltered aggregate result while being excluded from
the date-based bucket. -/
theorem contest_date_buckets (r : ListingRecord) (now : PyDateTime)
    (hcat : r.category = "contest") :
    (∀ items, r ∈ items →
      (r ∈ filter_by_status items "upcoming" now
        ↔ ∃ d, parse_datetime_safe r.start_date = some d ∧ now.key < d.key))
    ∧ (∀ items, r ∈ items →
      (r ∈ filter_by_status items "past" now
        ↔ ∃ d, parse_datetime_safe r.end_date = some d ∧ d.key < now.key))
    ∧ (∀ hackFile cfCache nowSecs cfResp ccFile,
        r ∈ sourceRecords hackFile cfCache nowSecs cfResp ccFile →
        r ∈ get_all hackFile cfCache nowSecs cfResp ccFile none none now) := by
  have keepUp : keepRecord "upcoming" now r
      = dtAfter (parse_datetime_safe r.start_date) now := by
    by_cases hd : dtAfter (parse_datetime_safe r.start_date) now = true
    · simp [keepRecord, hcat, hd]
    · simp [keepRecord, hcat, hd]
  have keepPast : keepRecord "past" now r
      = dtBefore (parse_datetime_safe r.end_date) now := by
    by_cases hd : dtBefore (parse_datetime_safe r.end_date) now = true
    · simp [keepRecord, hcat, hd]
    · simp [keepRecord, hcat, hd]
  refine ⟨fun items hmem => ?_, fun items hmem => ?_,
    fun hackFile cfCache nowSecs cfResp ccFile hmem => ?_⟩
  · simp [filter_by_status, List.mem_filter, hmem, keepUp, dtAfter_eq_true]
  · simp [filter_by_status, List.mem_filter, hmem, keepPast, dtBefore_eq_true]
  · simpa [get_all] using hmem

/-- A contest record with a parseable future start and an unparseable
end string. -/
def futureRec : ListingRecord :=
  { title := "Future Round", platform := "CodeChef"
    start_date := "2999-01-01 00:00", end_date := "bad"
    apply_link := "", category := "contest", status := none, phase := none }

/-- Witness for C4 at a concrete record: its start "2999-01-01 00:00"
parses and lies after now, so the "upcoming" filter keeps it; its end
"bad" does not parse, so the "past" filter drops it. -/
theorem contest_date_buckets_witness :
    futureRec ∈ filter_by_status [futureRec] "upcoming" now0
    ∧ futureRec ∉ filter_by_status [futureRec] "past" now0 := by
  constructor
  · exact ((contest_date_buckets futureRec now0 rfl).1 [futureRec] (by simp)).mpr
      ⟨⟨2999, 1, 1, 0, 0, 0, 0⟩, by decide, by decide⟩
  · intro hmem
    obtain ⟨d, hd, _⟩ :=
      ((contest_date_buckets futureRec now0 rfl).2.1 [futureRec] (by simp)).mp hmem
    simp [show parse_datetime_safe futureRec.end_date = none from rfl] at hd

/-! ## C8: aggregation order and the category filter -/

/-- C8: with no filters the query returns the three sources concatenated
in the fixed order hackathons, Codeforces contests, CodeChef contests;
with a (nonempty) category filter it retains exactly the records whose
category equals the filter, in their original relative order. -/
theorem get_all_concat_and_category_filter
    (hackFile : Option (Except Unit (List HackRow))) (cfCache : CFCache)
    (nowSecs : Nat) (cfResp : Option (List CFItem))
    (ccFile : Option (Except Unit CCData)) (now : PyDateTime) :
    get_all hackFile cfCache nowSecs cfResp ccFile none none now
      = sourceRecords hackFile cfCache nowSecs cfResp ccFile
    ∧ ∀ t, t ≠ "" →
      get_all hackFile cfCache nowSecs cfResp ccFile (some t) none now
        = (sourceRecords hackFile cfCache nowSecs cfResp ccFile).filter
            (fun c => c.category = t) := by
  refine ⟨rfl, fun t ht => ?_⟩
  simp [get_all, ht]

/-- First hackathon CSV row of the C8 scenario. -/
def hrowA : HackRow := ⟨"Hack One", "01-05-2024", "05-05-2024", "https://unstop.com/h1", "open"⟩

/-- Second hackathon CSV row of the C8 scenario. -/
def hrowB : HackRow := ⟨"Hack Two", "", "", "", "expired"⟩

/-- First snapshot contest of the C8 scenario. -/
def ccItemOne : CCItem :=
  { contest_name := some "CC One", contest_code := some "C1"
    contest_start_date_iso := some "2024-06-10T10:00:00"
    contest_end_date_iso := some "2024-06-10T13:00:00" }

/-- Second snapshot contest of the C8 scenario. -/
def ccItemTwo : CCItem :=
  { contest_name := some "CC Two", contest_code := some "C2"
    contest_start_date_iso := some "2024-04-01T10:00:00"
    contest_end_date_iso := some "2024-04-01T13:00:00" }

/-- Witness for C8: a mixed result set of 2 hackathons and 3 contests
(one from Codeforces, two from the snapshot) filtered with
type = "contest" returns exactly the 3 contest records, order
preserved. -/
theorem get_all_concat_and_category_filter_witness :
    (get_all (some (Except.ok [hrowA, hrowB])) { data := [], time := none } 0
        (some [cfGoodA])
        (some (Except.ok { future_contests := [ccItemOne], past_contests := [ccItemTwo] }))
        (some "contest") none now0).map (fun r => r.title)
      = ["A", "CC One", "CC Two"] := by
  rw [(get_all_concat_and_category_filter (some (Except.ok [hrowA, hrowB]))
    { data := [], time := none } 0 (some [cfGoodA])
    (some (Except.ok { future_contests := [ccItemOne], past_contests := [ccItemTwo] }))
    now0).2 "contest" (by decide)]
  rfl
